import Mathlib

/-!
Verification development for the preview-routing subsystem of the repository:
the service worker `public/preview-sw.js` (message handler and fetch handler)
and the registry-side `syncFilesToSW` / `updatePreview` operations of
`src/main.js`, shallowly embedded as executable Lean definitions.

File contents are either decoded text or an opaque byte buffer, mirroring the
scan-time classification in `main.js` (`file.text()` vs `file.arrayBuffer()`).
-/

inductive Content where
  | text (s : String)
  | buffer (bytes : List Nat)
deriving DecidableEq, Repr

/-- The worker's `files` map: a JS `Map` from path to content, modelled as an
insertion-ordered association list with the observable behaviour of
`Map.get` / `Map.set` (first key occurrence wins on lookup; `set` replaces in
place, else appends). -/
def FilesMap := List (String × Content)

/-- Model of `files.get(k)` (JS `Map.prototype.get`, string keys). -/
def mapGet (m : FilesMap) (k : String) : Option Content :=
  match m with
  | [] => none
  | (k', v) :: rest => if k' = k then some v else mapGet rest k

/-- Model of `files.set(k, v)` (JS `Map.prototype.set`): replace the entry in
place when the key is present, otherwise append preserving insertion order. -/
def mapSet (m : FilesMap) (k : String) (v : Content) : FilesMap :=
  match m with
  | [] => [(k, v)]
  | (k', v') :: rest => if k' = k then (k, v) :: rest else (k', v') :: mapSet rest k v

/-- The `SET_FILES` message handler of `public/preview-sw.js`: `files.clear()`
followed by `files.set(path, content)` for each entry of
`Object.entries(event.data.files)` in order. The previous mapping `m` is
discarded wholesale. -/
def onSetFiles (entries : List (String × Content)) (_m : FilesMap) : FilesMap :=
  entries.foldl (fun acc kv => mapSet acc kv.1 kv.2) []

/-- Value of the last entry with the given key in an entry list (the value an
insertion-ordered map holds after inserting every entry in order). -/
def lastVal (entries : List (String × Content)) (p : String) : Option Content :=
  match entries with
  | [] => none
  | kv :: rest =>
      match lastVal rest p with
      | some v => some v
      | none => if kv.1 = p then some kv.2 else none

/-- Model of JS `String.prototype.endsWith` (one argument form). -/
def endsWithS (s suffix : String) : Bool :=
  suffix.data.isSuffixOf s.data

/-- Model of JS `String.prototype.startsWith` (one argument form). -/
def startsWithS (s pre : String) : Bool :=
  pre.data.isPrefixOf s.data

/-- Model of JS `String.prototype.toLowerCase` on basic-latin text. -/
def strToLower (s : String) : String :=
  ⟨s.data.map Char.toLower⟩

/-- Model of JS `String.prototype.toUpperCase` on basic-latin text. -/
def strToUpper (s : String) : String :=
  ⟨s.data.map Char.toUpper⟩

/-- Model of `s.split(".").pop()`: the segment after the last dot (the whole
string when no dot occurs, empty when the string ends with a dot). -/
def lastDotSeg (s : String) : String :=
  ⟨s.data.foldl (fun acc c => if c = '.' then [] else acc ++ [c]) []⟩

/-- Index of the first occurrence of `pat` in a character list, as in JS
`String.prototype.indexOf` (`none` plays the role of `-1`). -/
def subIndex (pat : List Char) : List Char → Option Nat
  | [] => if pat.isEmpty then some 0 else none
  | c :: rest =>
      if pat.isPrefixOf (c :: rest) then some 0
      else (subIndex pat rest).map (· + 1)

/-- Model of JS `String.prototype.indexOf`, with `none` for `-1`. -/
def strIndexOf (s pat : String) : Option Nat :=
  subIndex pat.data s.data

/-- Decidable substring containment (JS `String.prototype.includes`). -/
def containsStr (s sub : String) : Bool :=
  (strIndexOf s sub).isSome

/-- Model of JS `String.prototype.substring(n)` (drop the first `n` units). -/
def stringDrop (s : String) (n : Nat) : String :=
  ⟨s.data.drop n⟩

/-- Global single-character replacement, as in `s.replace(/c/g, r)`. -/
def replaceAllChar (s : String) (c : Char) (r : String) : String :=
  ⟨(s.data.map (fun x => if x = c then r.data else [x])).flatten⟩

/-- The HTML escaping applied by the code-viewer branch of the fetch handler:
`content.replace(/&/g, "&amp;").replace(/</g, "&lt;").replace(/>/g, "&gt;")`. -/
def escapeHtml (s : String) : String :=
  replaceAllChar (replaceAllChar (replaceAllChar s '&' "&amp;") '<' "&lt;") '>' "&gt;"

/-- Numeric value of a hexadecimal digit, as accepted by percent-escapes. -/
def hexVal (c : Char) : Option Nat :=
  if '0' ≤ c ∧ c ≤ '9' then some (c.toNat - '0'.toNat)
  else if 'a' ≤ c ∧ c ≤ 'f' then some (c.toNat - 'a'.toNat + 10)
  else if 'A' ≤ c ∧ c ≤ 'F' then some (c.toNat - 'A'.toNat + 10)
  else none

/-- One token of a percent-encoded string: a raw byte from a `%XX` escape, or
a literal character. -/
inductive PctTok where
  | byte (b : Nat)
  | chr (c : Char)
deriving DecidableEq, Repr

/-- Tokenize a percent-encoded character list; `none` models a `URIError`
thrown on a malformed escape. -/
def pctTokens : List Char → Option (List PctTok)
  | [] => some []
  | c :: rest =>
      if c = '%' then
        match rest with
        | h1 :: h2 :: rest2 =>
            match hexVal h1, hexVal h2 with
            | some a, some b => (pctTokens rest2).map (PctTok.byte (16 * a + b) :: ·)
            | _, _ => none
        | _ => none
      else (pctTokens rest).map (PctTok.chr c :: ·)

/-- Is `b` a UTF-8 continuation byte? -/
def isCont (b : Nat) : Bool :=
  128 ≤ b && b ≤ 191

/-- UTF-8 decoding of a token stream: runs of escape bytes must form valid
UTF-8 sequences (no overlong forms, no surrogates), literal characters pass
through; `none` models a `URIError`. -/
def decodeToks : List PctTok → Option (List Char)
  | [] => some []
  | PctTok.chr c :: rest => (decodeToks rest).map (c :: ·)
  | PctTok.byte b :: rest =>
      if b ≤ 127 then (decodeToks rest).map (Char.ofNat b :: ·)
      else if 194 ≤ b && b ≤ 223 then
        match rest with
        | PctTok.byte b2 :: rest2 =>
            if isCont b2 then
              (decodeToks rest2).map (Char.ofNat ((b - 192) * 64 + (b2 - 128)) :: ·)
            else none
        | _ => none
      else if 224 ≤ b && b ≤ 239 then
        match rest with
        | PctTok.byte b2 :: PctTok.byte b3 :: rest3 =>
            if isCont b2 && isCont b3 then
              let cp := (b - 224) * 4096 + (b2 - 128) * 64 + (b3 - 128)
              if 2048 ≤ cp && !(55296 ≤ cp && cp ≤ 57343) then
                (decodeToks rest3).map (Char.ofNat cp :: ·)
              else none
            else none
        | _ => none
      else if 240 ≤ b && b ≤ 244 then
        match rest with
        | PctTok.byte b2 :: PctTok.byte b3 :: PctTok.byte b4 :: rest4 =>
            if isCont b2 && isCont b3 && isCont b4 then
              let cp := (b - 240) * 262144 + (b2 - 128) * 4096 + (b3 - 128) * 64 + (b4 - 128)
              if 65536 ≤ cp && cp ≤ 1114111 then
                (decodeToks rest4).map (Char.ofNat cp :: ·)
              else none
            else none
        | _ => none
      else none

/-- Model of the platform `decodeURIComponent`; `none` models a thrown
`URIError`. -/
def decodeURIComponent (s : String) : Option String :=
  match pctTokens s.data with
  | none => none
  | some toks => (decodeToks toks).map (fun cs => ⟨cs⟩)

/-- Interpolation `typeof content === "string" ? content : JSON.stringify(content)`
used by the JSON preview template; `JSON.stringify` of an `ArrayBuffer` yields
an empty object literal. -/
def contentAsJsText : Content → String
  | Content.text s => s
  | Content.buffer _ => "\x7b\x7d"

/-- Plain template interpolation of a content value: a string interpolates as
itself, an `ArrayBuffer` stringifies to its default object tag. -/
def contentAsTemplateText : Content → String
  | Content.text s => s
  | Content.buffer _ => "[object ArrayBuffer]"

/-- JSON preview template text before the embedded data (from the `prettyJson` template literal). -/
def jsonHtmlPre : String :=
  "\n                        <!DOCTYPE html>\n                        <html>\n                        <head>\n                            <meta charset=\"UTF-8\">\n                            <title>JSON Preview</title>\n                            <style>\n                                body \x7b background: #0f172a; color: #e2e8f0; font-family: \x27Fira Code\x27, monospace; padding: 2rem; \x7d\n                                pre \x7b background: #1e293b; padding: 1.5rem; border-radius: 12px; border: 1px solid #334155; overflow: auto; line-height: 1.5; \x7d\n                                .key \x7b color: #818cf8; \x7d\n                                .string \x7b color: #34d399; \x7d\n                                .number \x7b color: #fbbf24; \x7d\n                                .boolean \x7b color: #f472b6; \x7d\n                                .null \x7b color: #94a3b8; \x7d\n                            </style>\n                        </head>\n                        <body>\n                            <h2>JSON Data</h2>\n                            <pre id=\"json-output\"></pre>\n                            <script>\n                                const data = "

/-- JSON preview template text after the embedded data. -/
def jsonHtmlPost : String :=
  ";\n                                function syntaxHighlight(json) \x7b\n                                    if (typeof json != \x27string\x27) \x7b\n                                        json = JSON.stringify(json, undefined, 4);\n                                    \x7d\n                                    json = json.replace(/&/g, \x27&amp;\x27).replace(/</g, \x27&lt;\x27).replace(/>/g, \x27&gt;\x27);\n                                    return json.replace(/(\"(\\u[a-zA-Z0-9]\x7b4\x7d|\\\"|[^\"])*\"(\\s*:)?|\\b(true|false|null)\\b|-?\\d+(?:\\.\\d*)?(?:[eE][+\\-]?\\d+)?)/g, function (match) \x7b\n                                        var cls = \x27number\x27;\n                                        if (/^\"/.test(match)) \x7b\n                                            if (/:$/.test(match)) \x7b\n                                                cls = \x27key\x27;\n                                            \x7d else \x7b\n                                                cls = \x27string\x27;\n                                            \x7d\n                                        \x7d else if (/true|false/.test(match)) \x7b\n                                            cls = \x27boolean\x27;\n                                        \x7d else if (/null/.test(match)) \x7b\n                                            cls = \x27null\x27;\n                                        \x7d\n                                        return \x27<span class=\"\x27 + cls + \x27\">\x27 + match + \x27</span>\x27;\n                                    \x7d);\n                                \x7d\n                                try \x7b\n                                    document.getElementById(\x27json-output\x27).innerHTML = syntaxHighlight(data);\n                                \x7d catch (e) \x7b\n                                    document.getElementById(\x27json-output\x27).textContent = JSON.stringify(data, null, 4);\n                                \x7d\n                            </script>\n                        </body>\n                        </html>\n                    "

/-- React preview template text before the inlined source (from the `reactHtml` template literal). -/
def reactHtmlPre : String :=
  "\n                    <!DOCTYPE html>\n                    <html>\n                    <head>\n                        <meta charset=\"UTF-8\">\n                        <title>React Preview</title>\n                        <script src=\"https://unpkg.com/react@18/umd/react.development.js\"></script>\n                        <script src=\"https://unpkg.com/react-dom@18/umd/react-dom.development.js\"></script>\n                        <script src=\"https://unpkg.com/@babel/standalone/babel.min.js\"></script>\n                        <style>\n                            body \x7b background: #0f172a; color: white; font-family: sans-serif; display: flex; align-items: center; justify-content: center; height: 100vh; margin: 0; \x7d\n                            #root \x7b width: 100%; height: 100%; \x7d\n                        </style>\n                    </head>\n                    <body>\n                        <div id=\"root\"></div>\n                        <script type=\"text/babel\">\n                            "

/-- React preview template text after the inlined source. -/
def reactHtmlPost : String :=
  "\n                            \n                            // Attempt to render if there\x27s an App or if we can find something to render\n                            if (typeof App !== \x27undefined\x27) \x7b\n                                const root = ReactDOM.createRoot(document.getElementById(\x27root\x27));\n                                root.render(<App />);\n                            \x7d else \x7b\n                                // If no App, try to find a component or just notify\n                                console.log(\"React file loaded. Define an \x27App\x27 component to see it rendered.\");\n                            \x7d\n                        </script>\n                    </body>\n                    </html>\n                "

/-- Code viewer template text before the extension badge (from the `codeHtml` template literal). -/
def codeHtmlA : String :=
  "\n                    <!DOCTYPE html>\n                    <html>\n                    <head>\n                        <meta charset=\"UTF-8\">\n                        <title>Code Preview</title>\n                        <style>\n                            body \x7b background: #0f172a; color: #e2e8f0; font-family: \x27Fira Code\x27, monospace; padding: 2rem; \x7d\n                            pre \x7b background: #1e293b; padding: 1.5rem; border-radius: 12px; border: 1px solid #334155; overflow: auto; line-height: 1.5; white-space: pre-wrap; \x7d\n                            .header \x7b margin-bottom: 1rem; display: flex; align-items: center; gap: 10px; \x7d\n                            .badge \x7b background: #3b82f6; color: white; padding: 4px 8px; border-radius: 4px; font-size: 0.8rem; font-weight: bold; \x7d\n                        </style>\n                    </head>\n                    <body>\n                        <div class=\"header\">\n                            <span class=\"badge\">"

/-- Code viewer template text between the badge and the path. -/
def codeHtmlB : String :=
  "</span>\n                            <span>"

/-- Code viewer template text between the path and the escaped content. -/
def codeHtmlC : String :=
  "</span>\n                        </div>\n                        <pre><code>"

/-- Code viewer template text after the escaped content. -/
def codeHtmlD : String :=
  "</code></pre>\n                    </body>\n                    </html>\n                "

/-- Not-found page text before the embedded worker script path (from the `errorHtml` template literal). -/
def errorHtmlA : String :=
  "\n                <!DOCTYPE html>\n                <html>\n                <head>\n                    <meta charset=\"UTF-8\">\n                    <title>Could Not Connect</title>\n                    <style>\n                        body \x7b \n                            background: #0f172a; \n                            display: flex; \n                            align-items: center; \n                            justify-content: center; \n                            height: 100vh; \n                            margin: 0; \n                            color: white; \n                            font-family: \x27Inter\x27, -apple-system, sans-serif;\n                            overflow: hidden;\n                        \x7d\n                        .error-container \x7b \n                            text-align: center; \n                            max-width: 500px; \n                            padding: 20px;\n                            animation: fadeIn 0.8s ease-out;\n                        \x7d\n                        img \x7b \n                            width: 100%; \n                            max-width: 400px; \n                            border-radius: 24px; \n                            box-shadow: 0 20px 50px rgba(19, 108, 255, 0.3);\n                            margin-bottom: 20px;\n                        \x7d\n                        h2 \x7b margin: 0; font-size: 1.5rem; opacity: 0.9; \x7d\n                        @keyframes fadeIn \x7b\n                            from \x7b opacity: 0; transform: translateY(20px); \x7d\n                            to \x7b opacity: 1; transform: translateY(0); \x7d\n                        \x7d\n                    </style>\n                </head>\n                <body>\n                    <div class=\"error-container\">\n                        <script>\n                            const swPath = \""

/-- Not-found page text between the worker script path and the missing path. -/
def errorHtmlB : String :=
  "\";\n                            const appScope = swPath.substring(0, swPath.lastIndexOf(\x27/\x27));\n                            document.write(\x27<img src=\"\x27 + appScope + \x27/error.png\" alt=\"Could not connect to file\" />\x27);\n                        </script>\n                        <noscript>\n                             <img src=\"./error.png\" alt=\"Could not connect to file\" />\n                        </noscript>\n                        <h2>Oops! Could not find \""

/-- Not-found page text after the missing path. -/
def errorHtmlC : String :=
  "\"</h2>\n                    </div>\n                </body>\n                </html>\n            "

/-- Full body of the `prettyJson` template: HTML wrapper embedding the raw
JSON text for syntax-highlighted client-side rendering. -/
def prettyJsonHtml (content : Content) : String :=
  jsonHtmlPre ++ contentAsJsText content ++ jsonHtmlPost

/-- Full body of the `reactHtml` template: HTML wrapper loading React and an
in-browser transpiler and inlining the source. -/
def reactPreviewHtml (content : Content) : String :=
  reactHtmlPre ++ contentAsTemplateText content ++ reactHtmlPost

/-- Full body of the `codeHtml` template: monospace code block with an
extension badge, path header and HTML-escaped content. -/
def codeViewerHtml (lowerPath cleanPath : String) (s : String) : String :=
  codeHtmlA ++ strToUpper (lastDotSeg lowerPath) ++ codeHtmlB ++ cleanPath
    ++ codeHtmlC ++ escapeHtml s ++ codeHtmlD

/-- Full body of the `errorHtml` template: the synthesized not-found page,
embedding the worker's own script path and the missing path. -/
def notFoundHtml (swPath cleanPath : String) : String :=
  errorHtmlA ++ swPath ++ errorHtmlB ++ cleanPath ++ errorHtmlC

/-- An intercepted resource fetch: the URL path of the request and whether the
URL carries the cache-busting `t` query parameter
(`url.searchParams.has("t")`). -/
structure SWRequest where
  pathname : String
  hasT : Bool
deriving DecidableEq, Repr

/-- A synthesized response: status, `Content-Type` header, and body. -/
structure SWResponse where
  status : Nat
  contentType : String
  body : Content
deriving DecidableEq, Repr

/-- Result of running the fetch listener on one request: not intercepted
(handled by the network), answered via `event.respondWith`, or aborted by a
thrown exception before `respondWith` was reached. -/
inductive FetchResult where
  | passthrough
  | response (r : SWResponse)
  | thrown
deriving DecidableEq, Repr

/-- Outcome of the `else if` content-type chain of the fetch listener: either
an early `respondWith`-and-return, or a `contentType` value for the final
raw response. -/
inductive ChainOut where
  | early (r : SWResponse)
  | ctype (t : String)
deriving DecidableEq, Repr

/-- The fixed catch-all list of source-code extensions of the fetch listener. -/
def codeExtensions : List String :=
  [".py", ".java", ".cpp", ".h", ".hpp", ".cc", ".sql", ".rs", ".go", ".php",
   ".cs", ".kt", ".swift", ".ts"]

/-- The reserved namespace segment of the preview router. -/
def previewSegment : String :=
  "/preview/"

/-- The `else if` chain of the fetch listener, from the `.css` test through
the `.txt` test, starting from the initial `contentType = "text/plain"`.
The `.json` test responds early with the JSON preview wrapper when the `t`
marker is present, and the `.jsx`/`.tsx` test always responds early with the
React wrapper. -/
def dispatchChain (lowerPath : String) (content : Content) (hasT : Bool) : ChainOut :=
  if endsWithS lowerPath ".css" then ChainOut.ctype "text/css"
  else if endsWithS lowerPath ".js" then ChainOut.ctype "application/javascript"
  else if endsWithS lowerPath ".png" then ChainOut.ctype "image/png"
  else if endsWithS lowerPath ".jpg" || endsWithS lowerPath ".jpeg" then ChainOut.ctype "image/jpeg"
  else if endsWithS lowerPath ".svg" then ChainOut.ctype "image/svg+xml"
  else if endsWithS lowerPath ".gif" then ChainOut.ctype "image/gif"
  else if endsWithS lowerPath ".webp" then ChainOut.ctype "image/webp"
  else if endsWithS lowerPath ".ico" then ChainOut.ctype "image/x-icon"
  else if endsWithS lowerPath ".json" then
    if hasT then
      ChainOut.early { status := 200, contentType := "text/html",
                       body := Content.text (prettyJsonHtml content) }
    else ChainOut.ctype "application/json"
  else if endsWithS lowerPath ".jsx" || endsWithS lowerPath ".tsx" then
    ChainOut.early { status := 200, contentType := "text/html",
                     body := Content.text (reactPreviewHtml content) }
  else if endsWithS lowerPath ".xml" then ChainOut.ctype "application/xml"
  else if endsWithS lowerPath ".txt" then ChainOut.ctype "text/plain"
  else ChainOut.ctype "text/plain"

/-- The found-path branch of the fetch listener, with `lowerPath` as bound by
`const lowerPath = cleanPath.toLowerCase()`: immediate raw response for
`.html`; otherwise the content-type chain, then the code-viewer catch-all
(direct previews of recognized source-code extensions), then the raw
response. On a buffer content the code-viewer branch throws
(`content.replace` is not a function on an `ArrayBuffer`). -/
def respondFoundAux (lowerPath cleanPath : String) (content : Content) (hasT : Bool) : FetchResult :=
  if endsWithS lowerPath ".html" then
    FetchResult.response { status := 200, contentType := "text/html", body := content }
  else
    match dispatchChain lowerPath content hasT with
    | ChainOut.early r => FetchResult.response r
    | ChainOut.ctype t =>
        if (codeExtensions.any fun ext => endsWithS lowerPath ext) && hasT then
          match content with
          | Content.text s =>
              FetchResult.response { status := 200, contentType := "text/html",
                                     body := Content.text (codeViewerHtml lowerPath cleanPath s) }
          | Content.buffer _ => FetchResult.thrown
        else FetchResult.response { status := 200, contentType := t, body := content }

/-- The found-path branch of the fetch listener for a stored content. -/
def respondFound (content : Content) (cleanPath : String) (hasT : Bool) : FetchResult :=
  respondFoundAux (strToLower cleanPath) cleanPath content hasT

/-- The synthesized not-found response: status 200, `text/html`, the error
page (`swPath` is the worker's own `self.location.pathname`). -/
def notFoundResp (swPath cleanPath : String) : SWResponse :=
  { status := 200, contentType := "text/html",
    body := Content.text (notFoundHtml swPath cleanPath) }

/-- Mapping lookup and response synthesis of the fetch listener. -/
def respondFor (files : FilesMap) (swPath cleanPath : String) (hasT : Bool) : FetchResult :=
  match mapGet files cleanPath with
  | some content => respondFound content cleanPath hasT
  | none => FetchResult.response (notFoundResp swPath cleanPath)

/-- The fetch listener of `public/preview-sw.js`: intercept when the URL path
contains the namespace segment (`url.pathname.includes("/preview/")`), take
everything after the first occurrence (`indexOf` plus the segment length 9),
URL-decode it, default the empty remainder to `index.html`, and answer from
the mirrored mapping. -/
def onFetch (files : FilesMap) (swPath : String) (req : SWRequest) : FetchResult :=
  match strIndexOf req.pathname previewSegment with
  | none => FetchResult.passthrough
  | some matchIndex =>
      match decodeURIComponent (stringDrop req.pathname (matchIndex + 9)) with
      | none => FetchResult.thrown
      | some relativePath =>
          let cleanPath := if relativePath = "" then "index.html" else relativePath
          respondFor files swPath cleanPath req.hasT

/-- Content type determined solely by the path's extension per the fixed
table of the specification (html, css, js, json, the image types, xml, and
`text/plain` for txt or any unknown extension). -/
def specContentType (lowerPath : String) : String :=
  if endsWithS lowerPath ".html" then "text/html"
  else if endsWithS lowerPath ".css" then "text/css"
  else if endsWithS lowerPath ".js" then "application/javascript"
  else if endsWithS lowerPath ".json" then "application/json"
  else if endsWithS lowerPath ".png" then "image/png"
  else if endsWithS lowerPath ".jpg" then "image/jpeg"
  else if endsWithS lowerPath ".jpeg" then "image/jpeg"
  else if endsWithS lowerPath ".gif" then "image/gif"
  else if endsWithS lowerPath ".webp" then "image/webp"
  else if endsWithS lowerPath ".ico" then "image/x-icon"
  else if endsWithS lowerPath ".svg" then "image/svg+xml"
  else if endsWithS lowerPath ".xml" then "application/xml"
  else if endsWithS lowerPath ".txt" then "text/plain"
  else "text/plain"

/-- Routing pipeline as worded by the specification, applied to the remainder
after the namespace segment: URL-decode, treat an empty remainder as
`index.html`, then look up the mirrored mapping. -/
def specRoute (files : FilesMap) (swPath : String) (remainder : String) (hasT : Bool) : FetchResult :=
  match decodeURIComponent remainder with
  | none => FetchResult.thrown
  | some relativePath =>
      let cleanPath := if relativePath = "" then "index.html" else relativePath
      respondFor files swPath cleanPath hasT

/-- Environment of one `syncFilesToSW()` call: whether a controlling router
exists at the initial check, whether one exists at the re-check after the
bounded (1 s) wait, and whether the `FILES_SET_ACK` acknowledgement arrives
within the bounded (2 s) wait. -/
structure SyncEnv where
  controllerAtStart : Bool
  controllerAfterWait : Bool
  ackWithinTimeout : Bool
deriving DecidableEq, Repr

/-- Observable outcome of one `syncFilesToSW()` call: either the full current
mapping was posted to the router (recording whether the acknowledgement was
seen before the timeout), or synchronization was skipped for want of a
controller. -/
inductive SyncOutcome where
  | posted (files : List (String × Content)) (acked : Bool)
  | skipped
deriving DecidableEq, Repr

/-- The `syncFilesToSW` operation of `src/main.js`. The first bounded wait
(`controllerchange` or the 1 s `setTimeout` fallback) resolves either way; if
a controller is then present the full `fileContent` mapping is posted as a
`SET_FILES` message and the promise resolves on `FILES_SET_ACK` or on the 2 s
timeout; otherwise the function returns without posting. Every step resolves:
`Except.error` would model a rejected promise or a thrown exception, and no
path produces one. -/
def syncFilesToSW (env : SyncEnv) (fileContent : List (String × Content)) :
    Except String SyncOutcome :=
  let hasController := if env.controllerAtStart then true else env.controllerAfterWait
  if hasController then
    Except.ok (SyncOutcome.posted fileContent env.ackWithinTimeout)
  else
    Except.ok SyncOutcome.skipped

/-- Page-side session state touched by `updatePreview`: whether a project
root directory handle is open, the registry's mapping, the currently chosen
preview file, the preview iframe's target URL, and the router's mirrored
mapping. -/
structure AppState where
  rootHandle : Bool
  fileContent : List (String × Content)
  currentPreviewFile : String
  previewFrameSrc : String
  swFiles : FilesMap

/-- Effect of one `syncFilesToSW()` call on the session state: when a
controller is reachable the posted `SET_FILES` message is delivered and the
router's message handler replaces its mirrored mapping; otherwise nothing
changes. -/
def applySyncEffect (env : SyncEnv) (st : AppState) : AppState :=
  let hasController := if env.controllerAtStart then true else env.controllerAfterWait
  if hasController then { st with swFiles := onSetFiles st.fileContent st.swFiles }
  else st

/-- The `updatePreview` operation of `src/main.js`: return immediately when no
root directory handle is open; otherwise resolve the preview file (a string
argument wins over the current choice), sync to the router, and point the
preview iframe at the namespaced URL with a cache-busting timestamp. -/
def updatePreview (env : SyncEnv) (timestamp : Nat) (previewFile : Option String)
    (st : AppState) : AppState :=
  if !st.rootHandle then st
  else
    let fileToUse := match previewFile with
      | some s => s
      | none => st.currentPreviewFile
    let st1 := { st with currentPreviewFile := fileToUse }
    let st2 := applySyncEffect env st1
    { st2 with previewFrameSrc := "preview/" ++ fileToUse ++ "?t=" ++ toString timestamp }

/-- Content-Type of a fetch result, when a response was produced. -/
def fetchCT : FetchResult → Option String
  | FetchResult.response r => some r.contentType
  | _ => none

set_option maxRecDepth 16000

theorem mapGet_mapSet (m : FilesMap) (k q : String) (v : Content) :
    mapGet (mapSet m k v) q = if k = q then some v else mapGet m q := by
  induction m with
  | nil => simp [mapGet, mapSet]
  | cons kv rest ih =>
      obtain ⟨k', v'⟩ := kv
      by_cases h : k' = k
      · subst h
        by_cases hq : k' = q <;> simp [mapGet, mapSet, hq]
      · by_cases hq : k' = q
        · subst hq
          have hk : ¬ k = k' := fun hkq => h hkq.symm
          simp [mapGet, mapSet, h, hk]
        · simp [mapGet, mapSet, h, hq, ih]

theorem mapGet_foldl (E : List (String × Content)) (m0 : FilesMap) (q : String) :
    mapGet (E.foldl (fun acc kv => mapSet acc kv.1 kv.2) m0) q =
      match lastVal E q with
      | some v => some v
      | none => mapGet m0 q := by
  induction E generalizing m0 with
  | nil => simp [lastVal]
  | cons kv rest ih =>
      simp only [List.foldl_cons, lastVal]
      rw [ih]
      rcases h : lastVal rest q with _ | v
      · simp only [h, mapGet_mapSet]
        by_cases hq : kv.1 = q <;> simp [hq]
      · simp [h]

theorem mapGet_onSetFiles (E : List (String × Content)) (m : FilesMap) (q : String) :
    mapGet (onSetFiles E m) q = lastVal E q := by
  unfold onSetFiles
  rw [mapGet_foldl]
  rcases h : lastVal E q with _ | v <;> simp [mapGet]

theorem lastVal_of_not_mem (E : List (String × Content)) (q : String)
    (h : q ∉ E.map Prod.fst) : lastVal E q = none := by
  induction E with
  | nil => rfl
  | cons kv rest ih =>
      simp only [List.map_cons, List.mem_cons] at h
      push_neg at h
      have h1 : ¬ kv.1 = q := fun he => h.1 he.symm
      simp [lastVal, ih h.2, h1]

theorem lastVal_of_nodup (E : List (String × Content)) (q : String) (c : Content)
    (hnd : (E.map Prod.fst).Nodup) (hm : (q, c) ∈ E) : lastVal E q = some c := by
  induction E with
  | nil => cases hm
  | cons kv rest ih =>
      simp only [List.map_cons, List.nodup_cons] at hnd
      rcases List.mem_cons.mp hm with he | ht
      · have hq : kv.1 = q := by rw [← he]
        have hv : kv.2 = c := by rw [← he]
        have hnm : q ∉ rest.map Prod.fst := by
          intro hc; exact hnd.1 (hq ▸ hc)
        simp [lastVal, lastVal_of_not_mem rest q hnm, hq, hv]
      · simp [lastVal, ih hnd.2 ht]

theorem suffix_excl (s a b : String)
    (h1 : a.data.isSuffixOf b.data = false) (h2 : b.data.isSuffixOf a.data = false)
    (ha : endsWithS s a = true) : endsWithS s b = false := by
  unfold endsWithS at *
  cases hb : b.data.isSuffixOf s.data
  · rfl
  · exfalso
    have hsa : a.data <:+ s.data := List.isSuffixOf_iff_suffix.mp ha
    have hsb : b.data <:+ s.data := List.isSuffixOf_iff_suffix.mp hb
    rcases List.suffix_or_suffix_of_suffix hsa hsb with hab | hba
    · have : a.data.isSuffixOf b.data = true := List.isSuffixOf_iff_suffix.mpr hab
      rw [h1] at this; exact Bool.noConfusion this
    · have : b.data.isSuffixOf a.data = true := List.isSuffixOf_iff_suffix.mpr hba
      rw [h2] at this; exact Bool.noConfusion this

theorem subIndex_append_self (pat rest : List Char) : subIndex pat (pat ++ rest) = some 0 := by
  cases pat with
  | nil =>
      cases rest with
      | nil => rfl
      | cons c r => simp [subIndex, List.isPrefixOf]
  | cons c cs =>
      have h : List.isPrefixOf (c :: cs) ((c :: cs) ++ rest) = true :=
        List.isPrefixOf_iff_prefix.mpr (List.prefix_append _ _)
      simp only [List.cons_append] at h ⊢
      simp [subIndex, h]

theorem strIndexOf_append_self (p : String) :
    strIndexOf (previewSegment ++ p) previewSegment = some 0 := by
  unfold strIndexOf
  rw [String.data_append]
  exact subIndex_append_self _ _

theorem stringDrop_append_nine (p : String) : stringDrop (previewSegment ++ p) 9 = p := by
  unfold stringDrop
  rw [String.data_append]
  rw [List.drop_left' (show previewSegment.data.length = 9 from by decide)]

theorem onFetch_preview (files : FilesMap) (swPath p : String) (t : Bool)
    (hdec : decodeURIComponent p = some p) (hne : p ≠ "") :
    onFetch files swPath ⟨previewSegment ++ p, t⟩ = respondFor files swPath p t := by
  unfold onFetch
  simp only [strIndexOf_append_self, Nat.zero_add, stringDrop_append_nine, hdec,
    if_neg hne]

theorem subIndex_isSome_append (pat a b : List Char)
    (h : (subIndex pat a).isSome = true) : (subIndex pat (a ++ b)).isSome = true := by
  induction a with
  | nil =>
      simp only [subIndex] at h
      rcases pat with _ | ⟨c, cs⟩
      · cases b with
        | nil => rfl
        | cons x r => simp [subIndex, List.isPrefixOf]
      · simp at h
  | cons x r ih =>
      simp only [List.cons_append, subIndex, List.append_eq] at h ⊢
      by_cases hp : List.isPrefixOf pat (x :: (r ++ b)) = true
      · simp [hp]
      · have hp' : List.isPrefixOf pat (x :: r) = false := by
          cases hpp : List.isPrefixOf pat (x :: r)
          · rfl
          · exfalso
            have h1 : pat <+: (x :: r) := List.isPrefixOf_iff_prefix.mp hpp
            have h2 : pat <+: (x :: r) ++ b := h1.trans (List.prefix_append _ _)
            simp only [List.cons_append] at h2
            exact hp ( List.isPrefixOf_iff_prefix.mpr h2)
        rw [hp'] at h
        simp only [Bool.false_eq_true, if_false] at h
        have hr : (subIndex pat r).isSome = true := by
          cases hs : subIndex pat r
          · rw [hs] at h; simp at h
          · rfl
        have hrb := ih hr
        rw [if_neg hp]
        cases hs2 : subIndex pat (r ++ b)
        · rw [hs2] at hrb; simp at hrb
        · rfl

theorem subIndex_isSome_of_parts (pat u v : List Char) :
    (subIndex pat (u ++ (pat ++ v))).isSome = true := by
  induction u with
  | nil =>
      simp only [List.nil_append]
      rw [subIndex_append_self]; rfl
  | cons c r ih =>
      simp only [List.cons_append, subIndex, List.append_eq]
      by_cases hp : List.isPrefixOf pat (c :: (r ++ (pat ++ v))) = true
      · simp [hp]
      · rw [if_neg hp]
        cases hs : subIndex pat (r ++ (pat ++ v))
        · rw [hs] at ih; simp at ih
        · rfl

theorem containsStr_sandwich (x y sub : String) :
    containsStr ((x ++ sub) ++ y) sub = true := by
  unfold containsStr strIndexOf
  rw [String.data_append, String.data_append, List.append_assoc]
  exact subIndex_isSome_of_parts _ _ _

theorem containsStr_append_left (a b sub : String) (h : containsStr a sub = true) :
    containsStr (a ++ b) sub = true := by
  unfold containsStr strIndexOf at *
  rw [String.data_append]
  exact subIndex_isSome_append _ _ _ h


theorem respondFoundAux_ct_indep (lp p q : String) (c : Content) (t : Bool) :
    fetchCT (respondFoundAux lp p c t) = fetchCT (respondFoundAux lp q c t) := by
  unfold respondFoundAux
  cases hhtml : endsWithS lp ".html" with
  | true => simp [hhtml]
  | false =>
      simp only [hhtml, Bool.false_eq_true, if_false]
      cases hc : dispatchChain lp c t with
      | early r => rfl
      | ctype ct =>
          cases hcode : (codeExtensions.any fun ext => endsWithS lp ext) && t with
          | false => simp
          | true => cases c <;> simp [fetchCT]

theorem endsWithS_toLower (s a : String) (hfix : strToLower a = a)
    (h : endsWithS s a = true) : endsWithS (strToLower s) a = true := by
  unfold endsWithS strToLower at *
  have hsuf : a.data <:+ s.data := List.isSuffixOf_iff_suffix.mp h
  have hmap : (a.data.map Char.toLower) <:+ (s.data.map Char.toLower) :=
    List.IsSuffix.map _ hsuf
  have hd : a.data.map Char.toLower = a.data := congrArg String.data hfix
  rw [hd] at hmap
  exact List.isSuffixOf_iff_suffix.mpr hmap

theorem dispatchChain_no_t (lp : String) (c : Content)
    (hhtml : endsWithS lp ".html" = false)
    (hjsx : endsWithS lp ".jsx" = false) (htsx : endsWithS lp ".tsx" = false) :
    dispatchChain lp c false = ChainOut.ctype (specContentType lp) := by
  cases hcss : endsWithS lp ".css" with
  | true => simp [dispatchChain, specContentType, hhtml, hcss]
  | false =>
  cases hjs : endsWithS lp ".js" with
  | true => simp [dispatchChain, specContentType, hhtml, hcss, hjs]
  | false =>
  cases hpng : endsWithS lp ".png" with
  | true =>
      have hjson : endsWithS lp ".json" = false :=
        suffix_excl lp ".png" ".json" (by decide) (by decide) hpng
      simp [dispatchChain, specContentType, hhtml, hcss, hjs, hpng, hjson]
  | false =>
  cases hjpg : endsWithS lp ".jpg" with
  | true =>
      have hjson : endsWithS lp ".json" = false :=
        suffix_excl lp ".jpg" ".json" (by decide) (by decide) hjpg
      simp [dispatchChain, specContentType, hhtml, hcss, hjs, hpng, hjpg, hjson]
  | false =>
  cases hjpeg : endsWithS lp ".jpeg" with
  | true =>
      have hjson : endsWithS lp ".json" = false :=
        suffix_excl lp ".jpeg" ".json" (by decide) (by decide) hjpeg
      simp [dispatchChain, specContentType, hhtml, hcss, hjs, hpng, hjpg, hjpeg, hjson]
  | false =>
  cases hsvg : endsWithS lp ".svg" with
  | true =>
      have hjson : endsWithS lp ".json" = false :=
        suffix_excl lp ".svg" ".json" (by decide) (by decide) hsvg
      have hgif : endsWithS lp ".gif" = false :=
        suffix_excl lp ".svg" ".gif" (by decide) (by decide) hsvg
      have hwebp : endsWithS lp ".webp" = false :=
        suffix_excl lp ".svg" ".webp" (by decide) (by decide) hsvg
      have hico : endsWithS lp ".ico" = false :=
        suffix_excl lp ".svg" ".ico" (by decide) (by decide) hsvg
      simp [dispatchChain, specContentType, hhtml, hcss, hjs, hpng, hjpg, hjpeg, hsvg,
        hjson, hgif, hwebp, hico]
  | false =>
  cases hgif : endsWithS lp ".gif" with
  | true =>
      have hjson : endsWithS lp ".json" = false :=
        suffix_excl lp ".gif" ".json" (by decide) (by decide) hgif
      simp [dispatchChain, specContentType, hhtml, hcss, hjs, hpng, hjpg, hjpeg, hsvg,
        hgif, hjson]
  | false =>
  cases hwebp : endsWithS lp ".webp" with
  | true =>
      have hjson : endsWithS lp ".json" = false :=
        suffix_excl lp ".webp" ".json" (by decide) (by decide) hwebp
      simp [dispatchChain, specContentType, hhtml, hcss, hjs, hpng, hjpg, hjpeg, hsvg,
        hgif, hwebp, hjson]
  | false =>
  cases hico : endsWithS lp ".ico" with
  | true =>
      have hjson : endsWithS lp ".json" = false :=
        suffix_excl lp ".ico" ".json" (by decide) (by decide) hico
      simp [dispatchChain, specContentType, hhtml, hcss, hjs, hpng, hjpg, hjpeg, hsvg,
        hgif, hwebp, hico, hjson]
  | false =>
  cases hjson : endsWithS lp ".json" with
  | true => simp [dispatchChain, specContentType, hhtml, hcss, hjs, hpng, hjpg, hjpeg,
      hsvg, hgif, hwebp, hico, hjson]
  | false =>
  cases hxml : endsWithS lp ".xml" with
  | true => simp [dispatchChain, specContentType, hhtml, hcss, hjs, hpng, hjpg, hjpeg,
      hsvg, hgif, hwebp, hico, hjson, hjsx, htsx, hxml]
  | false =>
  cases htxt : endsWithS lp ".txt" with
  | true => simp [dispatchChain, specContentType, hhtml, hcss, hjs, hpng, hjpg, hjpeg,
      hsvg, hgif, hwebp, hico, hjson, hjsx, htsx, hxml, htxt]
  | false => simp [dispatchChain, specContentType, hhtml, hcss, hjs, hpng, hjpg, hjpeg,
      hsvg, hgif, hwebp, hico, hjson, hjsx, htsx, hxml, htxt]

theorem respondFoundAux_no_t (lp cp : String) (c : Content)
    (hjsx : endsWithS lp ".jsx" = false) (htsx : endsWithS lp ".tsx" = false) :
    respondFoundAux lp cp c false =
      FetchResult.response { status := 200, contentType := specContentType lp, body := c } := by
  unfold respondFoundAux
  cases hhtml : endsWithS lp ".html" with
  | true => simp [hhtml, specContentType]
  | false =>
      rw [dispatchChain_no_t lp c hhtml hjsx htsx]
      simp [hhtml, Bool.and_false]

theorem dispatchChain_json_t (lp : String) (c : Content)
    (hjson : endsWithS lp ".json" = true) :
    dispatchChain lp c true = ChainOut.early ⟨200, "text/html",
      Content.text (prettyJsonHtml c)⟩ := by
  have hcss := suffix_excl lp ".json" ".css" (by decide) (by decide) hjson
  have hjs := suffix_excl lp ".json" ".js" (by decide) (by decide) hjson
  have hpng := suffix_excl lp ".json" ".png" (by decide) (by decide) hjson
  have hjpg := suffix_excl lp ".json" ".jpg" (by decide) (by decide) hjson
  have hjpeg := suffix_excl lp ".json" ".jpeg" (by decide) (by decide) hjson
  have hsvg := suffix_excl lp ".json" ".svg" (by decide) (by decide) hjson
  have hgif := suffix_excl lp ".json" ".gif" (by decide) (by decide) hjson
  have hwebp := suffix_excl lp ".json" ".webp" (by decide) (by decide) hjson
  have hico := suffix_excl lp ".json" ".ico" (by decide) (by decide) hjson
  simp [dispatchChain, hcss, hjs, hpng, hjpg, hjpeg, hsvg, hgif, hwebp, hico, hjson]

/-- C1 (amended): for every path present in the mirrored mapping, a request
for the namespaced path without the direct-preview `t` marker whose lowercased
form does not end in `.jsx`/`.tsx` is answered with status 200, body equal to
the stored content, and Content-Type determined solely by the path's
(lowercased) extension per the fixed table. -/
theorem c1_found_raw_table (files : FilesMap) (swPath p : String) (c : Content)
    (hmem : mapGet files p = some c)
    (hdec : decodeURIComponent p = some p) (hne : p ≠ "")
    (hjsx : endsWithS (strToLower p) ".jsx" = false)
    (htsx : endsWithS (strToLower p) ".tsx" = false) :
    onFetch files swPath ⟨previewSegment ++ p, false⟩ =
      FetchResult.response ⟨200, specContentType (strToLower p), c⟩ := by
  rw [onFetch_preview _ _ _ _ hdec hne]
  unfold respondFor
  rw [hmem]
  unfold respondFound
  exact respondFoundAux_no_t _ _ _ hjsx htsx

theorem c1_found_raw_table_witness :
    (mapGet [("style.css", Content.text "body")] "style.css" = some (Content.text "body")) ∧
    onFetch [("style.css", Content.text "body")] "/sw.js"
        ⟨previewSegment ++ "style.css", false⟩ =
      FetchResult.response ⟨200, specContentType (strToLower "style.css"),
        Content.text "body"⟩ := by
  refine ⟨rfl, ?_⟩
  exact c1_found_raw_table [("style.css", Content.text "body")] "/sw.js" "style.css"
    (Content.text "body") rfl (by decide) (by decide) (by decide) (by decide)

/-- C1 counterexample: a stored `.jsx` path requested without the
direct-preview marker is answered with the React wrapper as `text/html`, not
with the raw body and the table type. -/
theorem c1_jsx_counterexample :
    onFetch [("a.jsx", Content.text "x")] "/sw.js" ⟨previewSegment ++ "a.jsx", false⟩ ≠
      FetchResult.response ⟨200, specContentType (strToLower "a.jsx"), Content.text "x"⟩ := by
  have h : onFetch [("a.jsx", Content.text "x")] "/sw.js" ⟨previewSegment ++ "a.jsx", false⟩ =
      FetchResult.response ⟨200, "text/html",
        Content.text (reactPreviewHtml (Content.text "x"))⟩ := rfl
  have h2 : specContentType (strToLower "a.jsx") = "text/plain" := by decide
  rw [h, h2]
  intro hc
  injection hc with hr
  exact absurd (congrArg SWResponse.contentType hr) (by decide)

/-- C2: for every path absent from the mirrored mapping, the namespaced
request is answered with status 200 and the synthesized HTML error page, whose
body contains the literal missing path. -/
theorem c2_not_found_page (files : FilesMap) (swPath p : String) (t : Bool)
    (hmiss : mapGet files p = none)
    (hdec : decodeURIComponent p = some p) (hne : p ≠ "") :
    onFetch files swPath ⟨previewSegment ++ p, t⟩ =
      FetchResult.response (notFoundResp swPath p) ∧
    containsStr (notFoundHtml swPath p) p = true := by
  constructor
  · rw [onFetch_preview _ _ _ _ hdec hne]
    unfold respondFor
    rw [hmiss]
  · unfold notFoundHtml
    exact containsStr_sandwich (errorHtmlA ++ swPath ++ errorHtmlB) errorHtmlC p

theorem c2_not_found_page_witness :
    (mapGet [] "missing.css" = none) ∧
    onFetch [] "/preview-sw.js" ⟨previewSegment ++ "missing.css", true⟩ =
      FetchResult.response (notFoundResp "/preview-sw.js" "missing.css") ∧
    containsStr (notFoundHtml "/preview-sw.js" "missing.css") "missing.css" = true := by
  have h := c2_not_found_page [] "/preview-sw.js" "missing.css" true rfl (by decide) (by decide)
  exact ⟨rfl, h.1, h.2⟩

/-- C3: the `SET_FILES` handler replaces the mirrored mapping with exactly the
received entries (clear-then-insert): every received path maps to its new
content, every other path is absent, and a request for a previously present
path absent from the new entries yields the not-found page. -/
theorem c3_set_files_replaces (E : List (String × Content)) (m : FilesMap) (p : String) :
    (p ∉ E.map Prod.fst → mapGet (onSetFiles E m) p = none) ∧
    (∀ c, (E.map Prod.fst).Nodup → (p, c) ∈ E → mapGet (onSetFiles E m) p = some c) ∧
    (∀ swPath t, p ∉ E.map Prod.fst → decodeURIComponent p = some p → p ≠ "" →
      onFetch (onSetFiles E m) swPath ⟨previewSegment ++ p, t⟩ =
        FetchResult.response (notFoundResp swPath p)) := by
  refine ⟨?_, ?_, ?_⟩
  · intro h
    rw [mapGet_onSetFiles]
    exact lastVal_of_not_mem E p h
  · intro c hnd hm
    rw [mapGet_onSetFiles]
    exact lastVal_of_nodup E p c hnd hm
  · intro swPath t h hdec hne
    rw [onFetch_preview _ _ _ _ hdec hne]
    unfold respondFor
    rw [mapGet_onSetFiles, lastVal_of_not_mem E p h]

theorem c3_set_files_replaces_witness :
    ("a" ∉ ([("b", Content.text "2")].map Prod.fst)) ∧
    mapGet (onSetFiles [("b", Content.text "2")]
      (onSetFiles [("a", Content.text "1")] [])) "a" = none ∧
    onFetch (onSetFiles [("b", Content.text "2")] (onSetFiles [("a", Content.text "1")] []))
        "/sw.js" ⟨previewSegment ++ "a", true⟩ =
      FetchResult.response (notFoundResp "/sw.js" "a") := by
  have h := c3_set_files_replaces [("b", Content.text "2")]
    (onSetFiles [("a", Content.text "1")] []) "a"
  exact ⟨by decide, h.1 (by decide), h.2.2 "/sw.js" true (by decide) (by decide) (by decide)⟩

/-- C4: a stored `.json` path requested as a direct (cache-busted, `t`-marked)
preview is answered 200 `text/html` with the synthesized highlighting wrapper
embedding the raw JSON text (with the key/string/number/boolean/null token
classes), not the raw body; the same path without the marker is answered with
the raw content as `application/json`. -/
theorem c4_json_preview (files : FilesMap) (swPath p s : String)
    (hmem : mapGet files p = some (Content.text s))
    (hjson : endsWithS p ".json" = true)
    (hdec : decodeURIComponent p = some p) (hne : p ≠ "") :
    (onFetch files swPath ⟨previewSegment ++ p, true⟩ =
      FetchResult.response ⟨200, "text/html",
        Content.text (prettyJsonHtml (Content.text s))⟩) ∧
    containsStr (prettyJsonHtml (Content.text s)) s = true ∧
    containsStr (prettyJsonHtml (Content.text s)) ".key" = true ∧
    containsStr (prettyJsonHtml (Content.text s)) ".string" = true ∧
    containsStr (prettyJsonHtml (Content.text s)) ".number" = true ∧
    containsStr (prettyJsonHtml (Content.text s)) ".boolean" = true ∧
    containsStr (prettyJsonHtml (Content.text s)) ".null" = true ∧
    prettyJsonHtml (Content.text s) ≠ s ∧
    (onFetch files swPath ⟨previewSegment ++ p, false⟩ =
      FetchResult.response ⟨200, "application/json", Content.text s⟩) := by
  have hlow : endsWithS (strToLower p) ".json" = true :=
    endsWithS_toLower p ".json" (by decide) hjson
  have hhtml := suffix_excl (strToLower p) ".json" ".html" (by decide) (by decide) hlow
  have hcss := suffix_excl (strToLower p) ".json" ".css" (by decide) (by decide) hlow
  have hjs := suffix_excl (strToLower p) ".json" ".js" (by decide) (by decide) hlow
  have hjsx := suffix_excl (strToLower p) ".json" ".jsx" (by decide) (by decide) hlow
  have htsx := suffix_excl (strToLower p) ".json" ".tsx" (by decide) (by decide) hlow
  have hfor : ∀ t, respondFor files swPath p t = respondFound (Content.text s) p t := by
    intro t
    unfold respondFor
    rw [hmem]
  refine ⟨?_, ?_, ?_, ?_, ?_, ?_, ?_, ?_, ?_⟩
  · rw [onFetch_preview _ _ _ _ hdec hne, hfor]
    unfold respondFound respondFoundAux
    rw [dispatchChain_json_t _ _ hlow]
    simp [hhtml]
  · unfold prettyJsonHtml contentAsJsText
    exact containsStr_sandwich jsonHtmlPre jsonHtmlPost s
  · unfold prettyJsonHtml
    exact containsStr_append_left _ _ _
      (containsStr_append_left _ _ _ (by decide))
  · unfold prettyJsonHtml
    exact containsStr_append_left _ _ _
      (containsStr_append_left _ _ _ (by decide))
  · unfold prettyJsonHtml
    exact containsStr_append_left _ _ _
      (containsStr_append_left _ _ _ (by decide))
  · unfold prettyJsonHtml
    exact containsStr_append_left _ _ _
      (containsStr_append_left _ _ _ (by decide))
  · unfold prettyJsonHtml
    exact containsStr_append_left _ _ _
      (containsStr_append_left _ _ _ (by decide))
  · intro h
    have hlen := congrArg (fun u : String => u.data.length) h
    simp only [prettyJsonHtml, contentAsJsText, String.data_append,
      List.length_append] at hlen
    have h1 : 0 < jsonHtmlPre.data.length := by decide
    omega
  · rw [onFetch_preview _ _ _ _ hdec hne, hfor]
    unfold respondFound
    rw [respondFoundAux_no_t _ _ _ hjsx htsx]
    have hct : specContentType (strToLower p) = "application/json" := by
      simp [specContentType, hhtml, hcss, hjs, hlow]
    rw [hct]

theorem c4_json_preview_witness :
    (mapGet [("data.json", Content.text "\x7b\"x\":1\x7d")] "data.json" =
      some (Content.text "\x7b\"x\":1\x7d")) ∧
    (endsWithS "data.json" ".json" = true) ∧
    (onFetch [("data.json", Content.text "\x7b\"x\":1\x7d")] "/sw.js"
        ⟨previewSegment ++ "data.json", true⟩ =
      FetchResult.response ⟨200, "text/html",
        Content.text (prettyJsonHtml (Content.text "\x7b\"x\":1\x7d"))⟩) ∧
    containsStr (prettyJsonHtml (Content.text "\x7b\"x\":1\x7d")) "\x7b\"x\":1\x7d" = true ∧
    (onFetch [("data.json", Content.text "\x7b\"x\":1\x7d")] "/sw.js"
        ⟨previewSegment ++ "data.json", false⟩ =
      FetchResult.response ⟨200, "application/json", Content.text "\x7b\"x\":1\x7d"⟩) := by
  have h := c4_json_preview [("data.json", Content.text "\x7b\"x\":1\x7d")] "/sw.js"
    "data.json" "\x7b\"x\":1\x7d" rfl (by decide) (by decide) (by decide)
  exact ⟨rfl, by decide, h.1, h.2.1, h.2.2.2.2.2.2.2.2⟩

/-- C5 (amended): the fetch listener intercepts exactly the requests whose URL
path contains the namespace segment `/preview/` (not only those beginning with
it); an intercepted request is processed by stripping everything through the
first occurrence of the segment, URL-decoding the remainder, treating an empty
remainder as `index.html`, and looking up the mirrored mapping. -/
theorem c5_routing_pipeline (files : FilesMap) (swPath : String) :
    (∀ req : SWRequest, strIndexOf req.pathname previewSegment = none →
        onFetch files swPath req = FetchResult.passthrough) ∧
    (∀ (req : SWRequest) (i : Nat), strIndexOf req.pathname previewSegment = some i →
        onFetch files swPath req =
          specRoute files swPath (stringDrop req.pathname (i + 9)) req.hasT) := by
  constructor
  · intro req h
    unfold onFetch
    rw [h]
  · intro req i h
    unfold onFetch specRoute
    rw [h]

theorem c5_routing_pipeline_witness :
    (strIndexOf "/other.css" previewSegment = none) ∧
    onFetch [] "/sw.js" ⟨"/other.css", false⟩ = FetchResult.passthrough ∧
    (strIndexOf "/preview/a.txt" previewSegment = some 0) ∧
    onFetch [] "/sw.js" ⟨"/preview/a.txt", true⟩ =
      specRoute [] "/sw.js" (stringDrop "/preview/a.txt" (0 + 9)) true := by
  have h := c5_routing_pipeline [] "/sw.js"
  exact ⟨by decide, h.1 ⟨"/other.css", false⟩ (by decide), by decide,
    h.2 ⟨"/preview/a.txt", true⟩ 0 (by decide)⟩

/-- C5 counterexample: a request whose path does not begin with `/preview/`
but contains it elsewhere is nevertheless intercepted (answered, not passed
through), refuting the begins-with reading. -/
theorem c5_containment_counterexample :
    startsWithS "/app/preview/x" previewSegment = false ∧
    onFetch [] "/sw.js" ⟨"/app/preview/x", false⟩ ≠ FetchResult.passthrough := by
  constructor
  · decide
  · have h : onFetch [] "/sw.js" ⟨"/app/preview/x", false⟩ =
        FetchResult.response (notFoundResp "/sw.js" "x") := rfl
    rw [h]
    intro hc
    exact FetchResult.noConfusion hc

/-- C6: a namespaced request with empty remainder is answered identically to a
request for `index.html`, for every mapping state. -/
theorem c6_empty_equals_index (files : FilesMap) (swPath : String) (t : Bool) :
    onFetch files swPath ⟨"/preview/", t⟩ =
      onFetch files swPath ⟨"/preview/index.html", t⟩ := rfl

/-- C7: processing the same `SET_FILES` entries twice in succession leaves the
mirrored mapping identical to processing them once. -/
theorem c7_sync_idempotent (E : List (String × Content)) (m : FilesMap) :
    onSetFiles E (onSetFiles E m) = onSetFiles E m := rfl

/-- C8: `syncFilesToSW` never produces an error outcome: both bounded waits
degrade to a no-op continuation, and the call resolves whether or not the
acknowledgement arrives within its timeout. -/
theorem c8_sync_never_errors (env : SyncEnv) (fc : List (String × Content)) :
    ∃ outcome, syncFilesToSW env fc = Except.ok outcome := by
  refine ⟨if (if env.controllerAtStart then true else env.controllerAfterWait)
    then SyncOutcome.posted fc env.ackWithinTimeout else SyncOutcome.skipped, ?_⟩
  unfold syncFilesToSW
  cases env.controllerAtStart <;> cases env.controllerAfterWait <;> rfl

/-- C9 (implicit): extension dispatch is computed from the lowercased path
(two paths equal up to case get the same Content-Type and preview kind, and a
stored `INDEX.HTML` is served as `text/html`), while the mapping lookup itself
is case-sensitive (a case-variant of the stored path misses and yields the
not-found page). -/
theorem c9_case_dispatch (p q : String) (c : Content) (t : Bool)
    (hlow : strToLower p = strToLower q) (hne : p ≠ q) :
    fetchCT (respondFound c p t) = fetchCT (respondFound c q t) ∧
    (∀ s, fetchCT (respondFound (Content.text s) "INDEX.HTML" t) = some "text/html") ∧
    (∀ swPath, respondFor [(p, c)] swPath q t =
      FetchResult.response (notFoundResp swPath q)) := by
  refine ⟨?_, ?_, ?_⟩
  · unfold respondFound
    rw [hlow]
    exact respondFoundAux_ct_indep _ _ _ _ _
  · intro s
    rfl
  · intro swPath
    unfold respondFor
    have hm : mapGet [(p, c)] q = none := by
      simp [mapGet, hne]
    rw [hm]

theorem c9_case_dispatch_witness :
    (strToLower "INDEX.HTML" = strToLower "index.html") ∧
    ("INDEX.HTML" ≠ "index.html") ∧
    fetchCT (respondFound (Content.text "hi") "INDEX.HTML" false) =
      fetchCT (respondFound (Content.text "hi") "index.html" false) ∧
    respondFor [("INDEX.HTML", Content.text "hi")] "/sw.js" "index.html" false =
      FetchResult.response (notFoundResp "/sw.js" "index.html") := by
  have h := c9_case_dispatch "INDEX.HTML" "index.html" (Content.text "hi") false
    (by decide) (by decide)
  exact ⟨by decide, by decide, h.1, h.2.2 "/sw.js"⟩

/-- C10 (implicit): with no root directory handle open, `updatePreview`
returns immediately: the registry mapping, the router's mirrored mapping, the
chosen preview file and the preview frame URL are all unchanged. -/
theorem c10_no_root_noop (env : SyncEnv) (timestamp : Nat) (previewFile : Option String)
    (st : AppState) (h : st.rootHandle = false) :
    updatePreview env timestamp previewFile st = st := by
  unfold updatePreview
  rw [h]
  rfl

theorem c10_no_root_noop_witness :
    (AppState.mk false [("a.html", Content.text "x")] "index.html" "" []).rootHandle = false ∧
    updatePreview ⟨true, true, true⟩ 5 (some "b.html")
        (AppState.mk false [("a.html", Content.text "x")] "index.html" "" []) =
      AppState.mk false [("a.html", Content.text "x")] "index.html" "" [] :=
  ⟨rfl, c10_no_root_noop ⟨true, true, true⟩ 5 (some "b.html")
    (AppState.mk false [("a.html", Content.text "x")] "index.html" "" []) rfl⟩
